import Mathlib

/-!
Verification development for the pipeline-compilation command in
`pkg/jx/cmd/step_create_task.go`.

The Go source is shallowly embedded: each Go function that the claims
touch becomes a Lean definition with the same name and the same control
flow; pointer-typed Go values become `Option`; Go errors become
`Except GoError`; a Go nil-pointer dereference is modelled by the
distinguished error `GoError.nilPanic`; the mutable per-invocation state
(`stepCounter`, `MissingPodTemplates`) is threaded explicitly through a
`CompileState` record.

Helpers from packages of the same repository that are not part of the
given sources (`pkg/jenkinsfile`, `pkg/kube`, `pkg/tekton`) are modelled
from the spec and marked as such in their doc comments.
-/

/-!
Go string primitives, modelled at the character-list level so that every
definition is structural recursion the kernel can evaluate (the core `String`
operations use well-founded recursion and do not reduce definitionally).
-/

/-- Whether `pat` is a prefix of `l` (Go `strings.HasPrefix` on runes). -/
def charsHasPrefix : List Char → List Char → Bool
  | _, [] => true
  | [], _ :: _ => false
  | c :: cs, p :: ps => c = p && charsHasPrefix cs ps

/-- Replace every non-overlapping occurrence of `pat` by `rep`, scanning left
to right (the loop of Go `strings.Replace` with `n = -1`); `pat` is non-empty.
The `skip` counter drops the remaining characters of a just-matched occurrence,
keeping the recursion structural on the scanned list. -/
def replaceAllAux (pat rep : List Char) : List Char → Nat → List Char
  | [], _ => []
  | _ :: cs, Nat.succ k => replaceAllAux pat rep cs k
  | c :: cs, 0 =>
    if charsHasPrefix (c :: cs) pat then rep ++ replaceAllAux pat rep cs (pat.length - 1)
    else c :: replaceAllAux pat rep cs 0

/-- Replace every non-overlapping occurrence of `pat` by `rep` (entry point). -/
def replaceAllChars (pat rep s : List Char) : List Char :=
  replaceAllAux pat rep s 0

/-- Replace the first occurrence of `pat` by `rep`; `pat` is non-empty. -/
def replaceFirstChars (pat rep : List Char) : List Char → List Char
  | [] => []
  | c :: cs =>
    if charsHasPrefix (c :: cs) pat then rep ++ cs.drop (pat.length - 1)
    else c :: replaceFirstChars pat rep cs

/-- Go `strings.Replace(s, old, new, -1)`. -/
def goReplaceAll (s old new : String) : String :=
  if old = "" then s else ⟨replaceAllChars old.data new.data s.data⟩

/-- Go `strings.Replace(s, old, new, 1)`: replace the first occurrence only. -/
def goReplaceFirst (s old new : String) : String :=
  if old = "" then s else ⟨replaceFirstChars old.data new.data s.data⟩

/-- Go `strings.HasPrefix`. -/
def goHasPrefix (s pre : String) : Bool := charsHasPrefix s.data pre.data

/-- Drop the first `n` characters (used for Go `strings.TrimPrefix(dir, ".")`). -/
def goDrop (s : String) (n : Nat) : String := ⟨s.data.drop n⟩

/-- The whitespace characters Go `strings.TrimSpace` strips from the ASCII range. -/
def isSpaceChar (c : Char) : Bool :=
  c = ' ' || c = '\t' || c = '\n' || c = '\r' || c = '\x0b' || c = '\x0c'

/-- Go `strings.TrimSpace` (over the ASCII whitespace set). -/
def goTrimSpace (s : String) : String :=
  ⟨((s.data.dropWhile isSpaceChar).reverse.dropWhile isSpaceChar).reverse⟩

/-- Go error values.  `errMsg` is a `fmt.Errorf`/`errors.New` style error with its
message; `nilPanic` models a Go nil-pointer dereference (a runtime panic, not an
error value). -/
inductive GoError : Type where
  | errMsg (msg : String)
  | nilPanic
deriving DecidableEq, Repr

/-- `corev1.EnvVar` (name/value pairs; valueFrom is not used by this code). -/
structure EnvVar where
  name : String
  value : String
deriving DecidableEq, Repr

/-- `corev1.VolumeMount`. -/
structure VolumeMount where
  name : String
  mountPath : String
  readOnly : Bool
deriving DecidableEq, Repr

/-- One item of a `corev1.DownwardAPIVolumeSource`. -/
structure DownwardAPIVolumeFile where
  path : String
  fieldRefFieldPath : String
deriving DecidableEq, Repr

/-- The volume sources this code constructs or copies around. -/
inductive VolumeSource : Type where
  | downwardAPI (items : List DownwardAPIVolumeFile)
  | other (descr : String)
deriving DecidableEq, Repr

/-- `corev1.Volume`. -/
structure Volume where
  name : String
  source : VolumeSource
deriving DecidableEq, Repr

/-- `corev1.Container` restricted to the fields this code reads or writes. -/
structure Container where
  name : String
  image : String
  command : List String
  args : List String
  workingDir : String
  env : List EnvVar
  volumeMounts : List VolumeMount
  stdin : Bool
  tty : Bool
deriving DecidableEq, Repr

/-- `corev1.PodSpec` restricted to the fields this code reads. -/
structure PodSpec where
  containers : List Container
  volumes : List Volume
deriving DecidableEq, Repr

/-- `corev1.Pod` restricted to the fields this code reads. -/
structure Pod where
  spec : PodSpec
deriving DecidableEq, Repr

/-- `pipelineapi.Param` (name/value). -/
structure Param where
  name : String
  value : String
deriving DecidableEq, Repr

/-- `gits.GitRepository` restricted to the fields this code reads. -/
structure GitInfo where
  organisation : String
  name : String
  cloneURL : String
deriving DecidableEq, Repr

/-- `jenkinsfile.PipelineStep`: a tree node with name, command, dir, container,
when-predicate and ordered child steps. -/
inductive PipelineStep : Type where
  | mk (name command dir container whenCond : String) (steps : List PipelineStep)

def PipelineStep.name : PipelineStep → String
  | .mk n _ _ _ _ _ => n

def PipelineStep.command : PipelineStep → String
  | .mk _ c _ _ _ _ => c

def PipelineStep.dir : PipelineStep → String
  | .mk _ _ d _ _ _ => d

def PipelineStep.container : PipelineStep → String
  | .mk _ _ _ c _ _ => c

def PipelineStep.whenCond : PipelineStep → String
  | .mk _ _ _ _ w _ => w

def PipelineStep.steps : PipelineStep → List PipelineStep
  | .mk _ _ _ _ _ s => s

/-- `jenkinsfile.PipelineLifecycle` restricted to its step list. -/
structure PipelineLifecycle where
  steps : List PipelineStep

/-- `jenkinsfile.PipelineLifecycles`: the optionally-present named stages, plus
the optional fully-declarative pipeline (`lifecycles.Pipeline`, whose contents
this development does not model further — only its presence matters for path
selection). -/
structure PipelineLifecycles where
  setup : Option PipelineLifecycle
  setVersion : Option PipelineLifecycle
  preBuild : Option PipelineLifecycle
  build : Option PipelineLifecycle
  postBuild : Option PipelineLifecycle
  promote : Option PipelineLifecycle
  pipeline : Option Unit

/-- `jenkinsfile.Pipelines`: pipeline kind to lifecycles. -/
structure Pipelines where
  pullRequest : Option PipelineLifecycles
  release : Option PipelineLifecycles
  feature : Option PipelineLifecycles

/-- `jenkinsfile.PipelineConfig` restricted to the fields this code reads:
the agent's default container image name and the pipelines map. -/
structure PipelineConfig where
  agentContainer : String
  pipelines : Pipelines

/-- Modelled from the spec (§3): `PipelineLifecycles.All()` from
`pkg/jenkinsfile` (not among the given sources) returns the named stages in
the fixed significant order setup, setversion, prebuild, build, postbuild,
promote. -/
def PipelineLifecycles.All (l : PipelineLifecycles) : List (String × Option PipelineLifecycle) :=
  [("setup", l.setup), ("setversion", l.setVersion), ("prebuild", l.preBuild),
   ("build", l.build), ("postbuild", l.postBuild), ("promote", l.promote)]

/-- Modelled from the spec (§4.2 and the §8 scenario): the designated default
pod-template name that `createSteps` falls back to; the constant is declared
elsewhere in the `cmd` package, outside the given sources. -/
def defaultContainerName : String := "default"

/-- `syntax.TektonAPIVersion`. -/
def tektonAPIVersion : String := "tekton.dev/v1alpha1"

/-- The command-line options and per-invocation values of
`StepCreateTaskOptions` that the embedded functions read. -/
structure Opts where
  noSetVersion : Bool
  viewSteps : Bool
  noApply : Bool
  customImage : String
  sourceName : String
  targetPath : String
  dockerRegistry : String
  pipelineKind : String
  context : String
  branch : String
  revision : String
  serviceAccount : String
  trigger : String
  buildNumber : String
  gitInfo : Option GitInfo
  params : List Param
  podTemplates : String → Option Pod

/-- The per-invocation mutable compilation state: the step counter and the
missing-pod-template set (`map[string]bool` in Go, modelled as a duplicate-free
insertion-ordered list). -/
structure CompileState where
  stepCounter : Nat
  missing : List String
deriving DecidableEq, Repr

/-- Insert a name into the missing-template set (Go map insertion). -/
def CompileState.recordMissing (st : CompileState) (n : String) : CompileState :=
  if n ∈ st.missing then st else { st with missing := st.missing ++ [n] }

/-- Go `strings.ToUpper`, modelled at the character level (the names this code
upper-cases are ASCII). -/
def goToUpper (s : String) : String := ⟨s.data.map Char.toUpper⟩

/-- `kube.GetSliceEnvVar`: find the env var with the given name, if any. -/
def getSliceEnvVar (envVars : List EnvVar) (n : String) : Option EnvVar :=
  envVars.find? (fun e => e.name = n)

/-- Whether an env var of the given name is present (`GetSliceEnvVar(...) != nil`). -/
def hasEnv (env : List EnvVar) (n : String) : Bool := (getSliceEnvVar env n).isSome

/-- One conditional append of `modifyEnvVars`: append `⟨n, v⟩` when the static
guard holds and no variable of that name is present (first-writer-wins). -/
def addEnvVarStep (env : List EnvVar) (a : Bool × String × String) : List EnvVar :=
  if a.1 && (getSliceEnvVar env a.2.1).isNone then env ++ [⟨a.2.1, a.2.2⟩] else env

/-- The ordered list of conditionally-injected variables of `modifyEnvVars`
(lines 1018–1100 of `step_create_task.go`): each entry is the Go guard that
does not depend on the env slice, the variable name, and the value. -/
def envAdditions (o : Opts) : List (Bool × String × String) :=
  [(true, "DOCKER_REGISTRY", o.dockerRegistry),
   (o.pipelineKind != "", "PIPELINE_KIND", o.pipelineKind),
   (o.context != "", "PIPELINE_CONTEXT", o.context)]
  ++ (match o.gitInfo with
      | some gi =>
        [(gi.cloneURL != "", "SOURCE_URL", gi.cloneURL),
         (gi.organisation != "", "REPO_OWNER", gi.organisation),
         (gi.name != "", "REPO_NAME", gi.name),
         (gi.organisation != "" && gi.name != "" && o.branch != "", "JOB_NAME",
           gi.organisation ++ "/" ++ gi.name ++ "/" ++ o.branch)]
      | none => [])
  ++ [(o.branch != "", "BRANCH_NAME", o.branch),
      (true, "JX_BATCH_MODE", "true")]
  ++ o.params.map (fun p =>
      (true, goToUpper p.name, "$\x7binputs.params." ++ p.name ++ "\x7d"))

/-- `modifyEnvVars`: drop any inherited `JENKINS_URL`, then append each derived
variable only if absent, in the source's fixed order. -/
def modifyEnvVars (o : Opts) (container : Container) : Container :=
  let envVars := container.env.filter (fun e => e.name ≠ "JENKINS_URL")
  { container with env := (envAdditions o).foldl addEnvVarStep envVars }

/-- The "podinfo" downward-API volume added by `modifyVolumes`. -/
def podInfoVolume : Volume :=
  { name := "podinfo",
    source := .downwardAPI [{ path := "labels", fieldRefFieldPath := "metadata.labels" }] }

/-- The "podinfo" volume mount added by `modifyVolumes`. -/
def podInfoVolumeMount : VolumeMount :=
  { name := "podinfo", mountPath := "/etc/podinfo", readOnly := true }

/-- Modelled from the spec (§4.4, "keyed by volume name"): `kube.ContainsVolume`
from `pkg/kube` (not among the given sources) tests presence by volume name. -/
def containsVolume (volumes : List Volume) (v : Volume) : Bool :=
  volumes.any (fun w => w.name = v.name)

/-- Modelled from the spec (§4.4): `kube.ContainsVolumeMount` tests presence by
mount name. -/
def containsVolumeMount (mounts : List VolumeMount) (m : VolumeMount) : Bool :=
  mounts.any (fun w => w.name = m.name)

/-- `modifyVolumes`: add the podinfo volume to the list and the podinfo mount to
the container, each only when not already present; returns the updated container
and volume list. -/
def modifyVolumes (container : Container) (volumes : List Volume) : Container × List Volume :=
  let answer := if containsVolume volumes podInfoVolume then volumes
                else volumes ++ [podInfoVolume]
  let container :=
    if containsVolumeMount container.volumeMounts podInfoVolumeMount then container
    else { container with volumeMounts := container.volumeMounts ++ [podInfoVolumeMount] }
  (container, answer)

/-- Modelled from the spec (§3, volumes "deduplicated by name"):
`kube.CombineVolumes` from `pkg/kube` (not among the given sources) appends each
extra volume whose name is not already present. -/
def combineVolumes (volumes : List Volume) (extra : List Volume) : List Volume :=
  extra.foldl (fun acc v => if containsVolume acc v then acc else acc ++ [v]) volumes

/-- `replaceCommandText`: unescape `\$`, drop the first legacy
``export VERSION=`cat VERSION` && `` occurrence, and rewrite the
`$(cat VERSION)` family to the env-var form. -/
def replaceCommandText (step : PipelineStep) : String :=
  let answer := goReplaceAll step.command "\\$" "$"
  let answer := goReplaceFirst answer "export VERSION=`cat VERSION` && " ""
  let answer := goReplaceAll answer "$(cat VERSION)" "$\x7bVERSION\x7d"
  let answer := goReplaceAll answer "$(cat ../VERSION)" "$\x7bVERSION\x7d"
  let answer := goReplaceAll answer "$(cat ../../VERSION)" "$\x7bVERSION\x7d"
  answer

/-- `getWorkspaceDir`: `filepath.Join("/workspace", o.SourceName)`. -/
def getWorkspaceDir (o : Opts) : String := "/workspace/" ++ o.sourceName

/-- Go `filepath.IsAbs` for slash paths. -/
def isAbsPath (p : String) : Bool := goHasPrefix p "/"

/-- Go `filepath.Join` restricted to the already-clean path shapes this code
produces (no `..`, no duplicate separators). -/
def goJoin (a b : String) : String :=
  if b = "" then a else if a = "" then b else a ++ "/" ++ b

/-- The leaf-compilation block of `createSteps` (lines 929–962): name the
container from the prefix path and step name (or the incremented step counter),
inject the podinfo volume/mount and the derived env vars, force the shell
command, apply the custom image override, normalize the command text into the
arguments, and resolve the working directory against the workspace root.
`counter` is the already-incremented step counter.  Returns the compiled
container, the updated volume list, and the resolved directory (which the Go
code leaves in the `dir` local, flowing into the child loop). -/
def compileLeaf (o : Opts) (step : PipelineStep) (c : Container) (volumes : List Volume)
    (counter : Nat) (pfxPath dir : String) : Container × List Volume × String :=
  let pfx := if pfxPath != "" then pfxPath ++ "-" else pfxPath
  let stepName := if step.name = "" then "step" ++ toString (1 + counter) else step.name
  let c := { c with name := pfx ++ stepName }
  let cv := modifyVolumes c volumes
  let c := modifyEnvVars o cv.1
  let c := { c with command := ["/bin/sh"] }
  let c := if o.customImage != "" then { c with image := o.customImage } else c
  let c := { c with args := ["-c", replaceCommandText step] }
  let workspaceDir := getWorkspaceDir o
  let dir := if goHasPrefix dir "./" then workspaceDir ++ goDrop dir 1 else dir
  let dir := if !isAbsPath dir then goJoin workspaceDir dir else dir
  let c := { c with workingDir := dir, stdin := false, tty := false }
  (c, cv.2, dir)

mutual

/-- `createSteps` (lines 894–976): compile one step-tree node.  A non-empty
`Command` makes the node a leaf execution unit compiled to one container from
the resolved pod template; its children (if any) are then compiled in order
with the *updated* container name and directory, exactly as the Go function's
local variables flow into the child loop.  Note the source's `else if`: a
step's `Dir` is only consulted when its `Container` is empty. -/
def createSteps (o : Opts) (step : PipelineStep) (containerName dir pfxPath : String)
    (st : CompileState) : Except GoError (List Container × List Volume × CompileState) :=
  match step with
  | .mk _sname scmd sdir scont _swhen children =>
    let containerName := if scont != "" then scont else containerName
    let dir := if scont != "" then dir else if sdir != "" then sdir else dir
    let dir :=
      match o.gitInfo with
      | some gi => goReplaceAll (goReplaceAll dir "REPLACE_ME_APP_NAME" gi.name)
          "REPLACE_ME_ORG" gi.organisation
      | none => dir
    if scmd != "" then
      let containerName := if containerName = "" then defaultContainerName else containerName
      let lookup :=
        match o.podTemplates containerName with
        | some pt => (some pt, st)
        | none => (o.podTemplates defaultContainerName, st.recordMissing containerName)
      match lookup with
      | (none, _) => .error .nilPanic
      | (some podTemplate, st) =>
        match podTemplate.spec.containers with
        | [] => .error (.errMsg ("No Containers for pod template " ++ containerName))
        | c :: _ =>
          let st := { st with stepCounter := st.stepCounter + 1 }
          let cvd := compileLeaf o step c podTemplate.spec.volumes st.stepCounter pfxPath dir
          createStepsList o children containerName cvd.2.2 pfxPath [cvd.1] cvd.2.1 st
    else
      createStepsList o children containerName dir pfxPath [] [] st

/-- The child loop of `createSteps` (lines 965–974): compile the children in
order, appending their containers and combining their volumes. -/
def createStepsList (o : Opts) (steps : List PipelineStep) (containerName dir pfxPath : String)
    (acc : List Container) (volumes : List Volume) (st : CompileState) :
    Except GoError (List Container × List Volume × CompileState) :=
  match steps with
  | [] => .ok (acc, volumes, st)
  | s :: rest =>
    match createSteps o s containerName dir pfxPath st with
    | .error e => .error e
    | .ok (ss, v, st) =>
      createStepsList o rest containerName dir pfxPath (acc ++ ss) (combineVolumes volumes v) st

end

/-- The inner per-step loop of `generatePipeline`'s build-pack path
(lines 477–484): compile each top-level step of one lifecycle, appending the
produced containers and combining the volumes. -/
def compileLifecycleSteps (o : Opts) (container dir stageName : String) :
    List PipelineStep → List Container → List Volume → CompileState →
    Except GoError (List Container × List Volume × CompileState)
  | [], steps, volumes, st => .ok (steps, volumes, st)
  | s :: rest, steps, volumes, st =>
    match createSteps o s container dir stageName st with
    | .error e => .error e
    | .ok (ss, v, st) =>
      compileLifecycleSteps o container dir stageName rest (steps ++ ss) (combineVolumes volumes v) st

/-- The stage loop of `generatePipeline`'s build-pack path (lines 469–485):
walk the named stages in order, skipping an absent lifecycle and skipping the
"setversion" stage when `!o.NoSetVersion`. -/
def compileStagesList (o : Opts) (container dir : String) :
    List (String × Option PipelineLifecycle) → List Container → List Volume → CompileState →
    Except GoError (List Container × List Volume × CompileState)
  | [], steps, volumes, st => .ok (steps, volumes, st)
  | (n, lc) :: rest, steps, volumes, st =>
    match lc with
    | none => compileStagesList o container dir rest steps volumes st
    | some l =>
      if !o.noSetVersion && n == "setversion" then
        compileStagesList o container dir rest steps volumes st
      else
        match compileLifecycleSteps o container dir n l.steps steps volumes st with
        | .error e => .error e
        | .ok (steps, volumes, st) => compileStagesList o container dir rest steps volumes st

/-- Reference variant of the stage loop, following the spec's words only: every
present stage is compiled unconditionally, with no special case for
"setversion".  It exists solely to compare the real loop against it. -/
def compileStagesListNoSkip (o : Opts) (container dir : String) :
    List (String × Option PipelineLifecycle) → List Container → List Volume → CompileState →
    Except GoError (List Container × List Volume × CompileState)
  | [], steps, volumes, st => .ok (steps, volumes, st)
  | (n, lc) :: rest, steps, volumes, st =>
    match lc with
    | none => compileStagesListNoSkip o container dir rest steps volumes st
    | some l =>
      match compileLifecycleSteps o container dir n l.steps steps volumes st with
      | .error e => .error e
      | .ok (steps, volumes, st) => compileStagesListNoSkip o container dir rest steps volumes st

/-- `pipelineapi.TaskParam`. -/
structure TaskParam where
  name : String
  description : String
  defaultValue : String
deriving DecidableEq, Repr

/-- `pipelineapi.TaskResource` (declared task input resource). -/
structure TaskResource where
  name : String
  resourceType : String
  targetPath : String
deriving DecidableEq, Repr

/-- `pipelineapi.Task` restricted to the fields this code sets (named `TektonTask`
here to avoid the Lean core `Task` type). -/
structure TektonTask where
  name : String
  ns : String
  steps : List Container
  volumes : List Volume
  taskParams : List TaskParam
  inputResources : List TaskResource
deriving DecidableEq, Repr

/-- The task parameter declarations built at the start of `generatePipeline`
(lines 367–384). -/
def taskParamsOf (params : List Param) : List TaskParam :=
  params.map fun p =>
    { name := p.name,
      description :=
        if p.name = "version" then
          "the version number for this release which is used as a tag on docker images"
        else if p.name = "preview_version" then
          "the version number for this preview which is used as a tag on docker images"
        else "",
      defaultValue := "" }

/-- Modelled from the spec (§6): `tekton.PipelineResourceName` from `pkg/tekton`
(not among the given sources) composes a resource name from the repository
identity, branch and context. -/
def pipelineResourceName (gi : Option GitInfo) (branch context : String) : String :=
  (match gi with
   | some g => g.organisation ++ "-" ++ g.name ++ "-" ++ branch
   | none => branch)
  ++ (if context != "" then "-" ++ context else "")

/-- The possible outcomes of `generatePipeline` before the apply/output tail:
`noLifecycles` is the early `return nil` when the selected lifecycles pointer is
nil (lines 357–359); `declarative` is the explicit-Pipeline path (lines
387–458), not modelled further; `buildPackTask` carries the one task built by
the build-pack path (lines 461–511). -/
inductive PipelineOutcome : Type where
  | noLifecycles
  | declarative
  | buildPackTask (task : TektonTask)
deriving DecidableEq, Repr

/-- `generatePipeline` (lines 356–530) up to the point where the built task is
either viewed or applied; label handling (`setBuildValues`) and the apply/output
tail are modelled separately. -/
def generatePipeline (o : Opts) (cfg : PipelineConfig) (lifecycles : Option PipelineLifecycles)
    (st : CompileState) : Except GoError PipelineOutcome :=
  match lifecycles with
  | none => .ok .noLifecycles
  | some ls =>
    if ls.pipeline.isSome then .ok .declarative
    else
      let container := if o.customImage != "" then o.customImage else cfg.agentContainer
      let dir := getWorkspaceDir o
      match compileStagesList o container dir ls.All [] [] st with
      | .error e => .error e
      | .ok (steps, volumes, _st) =>
        .ok (.buildPackTask
          { name := pipelineResourceName o.gitInfo o.branch o.context,
            ns := "",
            steps := steps,
            volumes := volumes,
            taskParams := taskParamsOf o.params,
            inputResources :=
              [{ name := o.sourceName, resourceType := "git", targetPath := o.targetPath }] })

/-- The credentials pre-step prepended for release pipelines (lines 338–343). -/
def credentialsStep : PipelineStep :=
  .mk "jx-git-credentials" "jx step git credentials" "" "" "" []

/-- `generateTask` (lines 326–354): select the lifecycles for the requested
kind; for release, prepend the git-credentials setup step (creating the setup
lifecycle when absent — note that a nil release lifecycles pointer is
dereferenced there, a Go panic); unknown kinds fail. -/
def generateTask (o : Opts) (cfg : PipelineConfig) (st : CompileState) :
    Except GoError PipelineOutcome :=
  match o.pipelineKind with
  | "release" =>
    match cfg.pipelines.release with
    | none => .error .nilPanic
    | some ls =>
      let setup := ls.setup.getD { steps := [] }
      let ls := { ls with setup := some { setup with steps := [credentialsStep] ++ setup.steps } }
      generatePipeline o cfg (some ls) st
  | "pullrequest" => generatePipeline o cfg cfg.pipelines.pullRequest st
  | "feature" => generatePipeline o cfg cfg.pipelines.feature st
  | k => .error (.errMsg ("Unknown pipeline kind " ++ k ++
      ". Supported values are release, pullrequest, feature"))

/-- `runStepCommand` (lines 1258–1280): unescape `\$` and hand the command text
to the synchronous command runner (`util.Command`, an external collaborator,
modelled as a function argument). -/
def runStepCommand (runner : String → Except GoError String) (step : PipelineStep) :
    Except GoError Unit :=
  if step.command = "" then .ok ()
  else
    match runner (goReplaceAll step.command "\\$" "$") with
    | .error e => .error e
    | .ok _ => .ok ()

mutual

/-- `invokeSteps` (lines 1282–1303): run each step's children first, then the
step's own command unless its trimmed `When` is the literal `!prow` or its
command is empty. -/
def invokeSteps (runner : String → Except GoError String) :
    List PipelineStep → Except GoError Unit
  | [] => .ok ()
  | s :: rest =>
    match invokeStepChildren runner s with
    | .error e => .error e
    | .ok _ =>
      if goTrimSpace s.whenCond == "!prow" || s.command == "" then invokeSteps runner rest
      else
        match runStepCommand runner s with
        | .error e => .error e
        | .ok _ => invokeSteps runner rest

/-- The `len(s.Steps) > 0` guard of `invokeSteps` (lines 1287–1292). -/
def invokeStepChildren (runner : String → Except GoError String) (s : PipelineStep) :
    Except GoError Unit :=
  match s with
  | .mk _ _ _ _ _ children => if children.isEmpty then .ok () else invokeSteps runner children

end

/-- `setVersionOnReleasePipelines` (lines 1197–1256).  `versionFile` is the
contents of the working directory's `VERSION` file when it exists; `runner` is
the external command runner.  Returns the updated pipeline parameters and
revision. -/
def setVersionOnReleasePipelines (o : Opts) (cfg : PipelineConfig) (versionFile : Option String)
    (runner : String → Except GoError String) : Except GoError (List Param × String) :=
  if o.noSetVersion || o.viewSteps then .ok (o.params, o.revision)
  else if o.pipelineKind = "release" then
    match cfg.pipelines.release with
    | none => .error (.errMsg "no Release pipeline available")
    | some release =>
      match release.setVersion with
      | none => .error (.errMsg "no SetVersion pipeline on the Release pipeline")
      | some sv =>
        match invokeSteps runner sv.steps with
        | .error e => .error e
        | .ok _ =>
          let version :=
            match versionFile with
            | some data => let text := goTrimSpace data; if text = "" then "" else text
            | none => ""
          if version != "" then
            .ok (o.params ++ [{ name := "version", value := version }], "v" ++ version)
          else
            .ok (o.params, o.revision)
  else
    let branch := if o.branch = "" then o.revision else o.branch
    .ok (o.params ++
      [{ name := "preview_version", value := "0.0.0-SNAPSHOT-" ++ branch ++ "-" ++ o.buildNumber }],
      o.revision)

/-- `metav1.OwnerReference` restricted to the fields this code sets. -/
structure OwnerReference where
  apiVersion : String
  kind : String
  name : String
  uid : String
deriving DecidableEq, Repr

/-- `pipelineapi.Pipeline` restricted to the fields this code reads or sets. -/
structure Pipeline where
  name : String
  ns : String
  apiVersion : String
  kind : String
  uid : String
deriving DecidableEq, Repr

/-- `pipelineapi.PipelineResource` restricted to the fields this code reads. -/
structure Resource where
  name : String
  apiVersion : String
  resourceType : String
deriving DecidableEq, Repr

/-- `pipelineapi.PipelineResourceBinding`. -/
structure ResourceBinding where
  name : String
  resourceRefName : String
  resourceRefApiVersion : String
deriving DecidableEq, Repr

/-- `pipelineapi.PipelineRun` restricted to the fields this code sets. -/
structure PipelineRun where
  name : String
  ownerReferences : List OwnerReference
  serviceAccount : String
  trigger : String
  pipelineRefName : String
  pipelineRefApiVersion : String
  resources : List ResourceBinding
  params : List Param
deriving DecidableEq, Repr

/-- `v1.PipelineStructure` restricted to the fields this code sets. -/
structure PipelineStructure where
  name : String
  pipelineRef : Option String
  pipelineRunRef : Option String
  ownerReferences : List OwnerReference
deriving DecidableEq, Repr

/-- The cluster mutations `applyPipeline` can issue, in issue order. -/
inductive Mutation : Type where
  | upsertResource (name : String)
  | upsertTask (name : String)
  | upsertPipeline (name : String)
  | createRun (name : String)
  | createStructure (name : String)
deriving DecidableEq, Repr

/-- `StepCreateTaskResults` restricted to the fields `applyPipeline` sets. -/
structure Results where
  pipeline : Option Pipeline
  tasks : List TektonTask
  resources : List Resource
  pipelineRun : Option PipelineRun
  struct : Option PipelineStructure
deriving DecidableEq, Repr

/-- `applyPipeline` (lines 743–892): set namespaces and defaults, build the
resource bindings and the run, issue the create-or-update calls unless
`o.NoApply`, stamp the structure record when a run was created, and populate the
in-memory `Results`.  The external reconciler calls
(`tekton.CreateOrUpdate{SourceResource,Task,Pipeline}`, `CreatePipelineRun`,
the structures client) are out-of-scope collaborators modelled as always
succeeding and returning their argument unchanged; the mutations they would
perform are recorded in the returned `Mutation` list. -/
def applyPipeline (o : Opts) (ns : String) (pipeline : Pipeline) (tasks : List TektonTask)
    (resources : List Resource) (struct : Option PipelineStructure) :
    Results × List Mutation :=
  let resourceBindings := resources.map fun r =>
    ({ name := r.name, resourceRefName := r.name, resourceRefApiVersion := r.apiVersion }
      : ResourceBinding)
  let resourceMuts := if o.noApply then [] else resources.map fun r => Mutation.upsertResource r.name
  let tasks := tasks.map fun t => { t with ns := ns }
  let taskMuts := if o.noApply then [] else tasks.map fun t => Mutation.upsertTask t.name
  let pipeline := { pipeline with
    ns := ns,
    apiVersion := if pipeline.apiVersion = "" then tektonAPIVersion else pipeline.apiVersion,
    kind := if pipeline.kind = "" then "Pipeline" else pipeline.kind }
  let pipelineMuts := if o.noApply then [] else [Mutation.upsertPipeline pipeline.name]
  let run : PipelineRun :=
    { name := pipeline.name,
      ownerReferences :=
        [{ apiVersion := tektonAPIVersion, kind := "Pipeline", name := pipeline.name,
           uid := pipeline.uid }],
      serviceAccount := o.serviceAccount,
      trigger := o.trigger,
      pipelineRefName := pipeline.name,
      pipelineRefApiVersion := pipeline.apiVersion,
      resources := resourceBindings,
      params := o.params }
  let runStructMuts : List Mutation × Option PipelineStructure :=
    if o.noApply then ([], struct)
    else
      match struct with
      | none => ([Mutation.createRun run.name], none)
      | some s =>
        let s := { s with
          pipelineRunRef := some run.name,
          ownerReferences :=
            [{ apiVersion := tektonAPIVersion, kind := "Pipeline", name := pipeline.name,
               uid := pipeline.uid }] }
        let s := { s with
          pipelineRef := if s.pipelineRef = none then some pipeline.name else s.pipelineRef }
        let s := { s with name := run.name, pipelineRunRef := some run.name }
        ([Mutation.createRun run.name, Mutation.createStructure s.name], some s)
  ({ pipeline := some pipeline,
     tasks := tasks,
     resources := resources,
     pipelineRun := some run,
     struct := runStructMuts.2 },
   resourceMuts ++ taskMuts ++ pipelineMuts ++ runStructMuts.1)

/-- A minimal pod-template container used by the concrete examples. -/
def fixtureContainer : Container :=
  { name := "", image := "maven:3.5", command := [], args := [], workingDir := "",
    env := [], volumeMounts := [], stdin := false, tty := false }

/-- A minimal pod template with exactly one container and no volumes. -/
def fixturePod : Pod := { spec := { containers := [fixtureContainer], volumes := [] } }

/-- A baseline option record for the concrete examples: release kind, version
setting enabled, one pod template under the name "maven". -/
def fixtureOpts : Opts :=
  { noSetVersion := false, viewSteps := false, noApply := false,
    customImage := "", sourceName := "source", targetPath := "",
    dockerRegistry := "gcr.io", pipelineKind := "release", context := "",
    branch := "master", revision := "", serviceAccount := "tekton-bot",
    trigger := "manual", buildNumber := "1",
    gitInfo := some { organisation := "acme", name := "demo",
                      cloneURL := "https://github.com/acme/demo.git" },
    params := [],
    podTemplates := fun n => if n = "maven" then some fixturePod else none }

/-- A lifecycles value whose only present stage is a one-step "setversion". -/
def fixtureSetVersionOnly : PipelineLifecycles :=
  { setup := none,
    setVersion := some { steps := [.mk "set-version" "jx step next-version" "" "" "" []] },
    preBuild := none, build := none, postBuild := none, promote := none, pipeline := none }

/-- A pipeline config whose agent container is "maven". -/
def fixtureConfig : PipelineConfig :=
  { agentContainer := "maven",
    pipelines := { pullRequest := none, release := some fixtureSetVersionOnly, feature := none } }

/-- The empty compilation state a fresh invocation starts from. -/
def st0 : CompileState := { stepCounter := 0, missing := [] }

/-- A config with no pipelines at all (every kind's lifecycles pointer nil). -/
def cfgNoPipelines : PipelineConfig :=
  { agentContainer := "maven",
    pipelines := { pullRequest := none, release := none, feature := none } }

/-- Option record whose pod-template map contains only the default template. -/
def fixtureOptsDefaultOnly : Opts :=
  { fixtureOpts with podTemplates := fun n => if n = "default" then some fixturePod else none }

/-- A concrete pipeline object with empty apiVersion/kind, to be defaulted. -/
def fixturePipelineObj : Pipeline :=
  { name := "p", ns := "", apiVersion := "", kind := "", uid := "u1" }

/-- A concrete unstamped structure record. -/
def fixtureStructure : PipelineStructure :=
  { name := "orig", pipelineRef := none, pipelineRunRef := none, ownerReferences := [] }

/-! ## Helper lemmas for the injector (claim C7) -/

theorem hasEnv_iff {env : List EnvVar} {n : String} :
    hasEnv env n = true ↔ ∃ e ∈ env, e.name = n := by
  simp [hasEnv, getSliceEnvVar]

theorem hasEnv_append {env : List EnvVar} {n : String} (l : List EnvVar)
    (h : hasEnv env n = true) : hasEnv (env ++ l) n = true := by
  rw [hasEnv_iff] at h ⊢
  obtain ⟨e, he, hn⟩ := h
  exact ⟨e, List.mem_append_left l he, hn⟩

theorem addEnvVarStep_mono {env : List EnvVar} {n : String} (a : Bool × String × String)
    (h : hasEnv env n = true) : hasEnv (addEnvVarStep env a) n = true := by
  unfold addEnvVarStep
  split
  · exact hasEnv_append _ h
  · exact h

theorem addEnvVarStep_self {env : List EnvVar} {a : Bool × String × String}
    (hg : a.1 = true) : hasEnv (addEnvVarStep env a) a.2.1 = true := by
  unfold addEnvVarStep
  split
  · next hc =>
    rw [hasEnv_iff]
    exact ⟨⟨a.2.1, a.2.2⟩, List.mem_append_right _ (List.mem_singleton.mpr rfl), rfl⟩
  · next hc =>
    simp only [hg, Bool.true_and, Option.isNone_iff_eq_none] at hc
    rw [hasEnv_iff]
    have : (getSliceEnvVar env a.2.1).isSome = true := by
      cases hx : getSliceEnvVar env a.2.1 with
      | none => exact absurd hx hc
      | some e => rfl
    rw [← hasEnv_iff]
    exact this

theorem foldl_addEnv_mono {n : String} (l : List (Bool × String × String)) :
    ∀ env : List EnvVar, hasEnv env n = true →
      hasEnv (l.foldl addEnvVarStep env) n = true := by
  induction l with
  | nil => intro env h; simpa using h
  | cons a l ih =>
    intro env h
    simpa using ih (addEnvVarStep env a) (addEnvVarStep_mono a h)

theorem foldl_addEnv_of_mem {a : Bool × String × String} (l : List (Bool × String × String))
    (ha : a ∈ l) (hg : a.1 = true) :
    ∀ env : List EnvVar, hasEnv (l.foldl addEnvVarStep env) a.2.1 = true := by
  induction l with
  | nil => cases ha
  | cons b l ih =>
    intro env
    rcases List.mem_cons.mp ha with h | h
    · subst h
      simpa using foldl_addEnv_mono l _ (addEnvVarStep_self hg)
    · simpa using ih h _

theorem addEnvVarStep_of_hasEnv {env : List EnvVar} {a : Bool × String × String}
    (h : hasEnv env a.2.1 = true) : addEnvVarStep env a = env := by
  unfold addEnvVarStep
  split
  · next hc =>
    exfalso
    rw [Bool.and_eq_true] at hc
    have hnone := hc.2
    simp only [hasEnv] at h
    rw [Option.isNone_iff_eq_none] at hnone
    rw [hnone] at h
    simp at h
  · rfl

theorem foldl_addEnv_noop (l : List (Bool × String × String)) :
    ∀ env : List EnvVar, (∀ a ∈ l, a.1 = true → hasEnv env a.2.1 = true) →
      l.foldl addEnvVarStep env = env := by
  induction l with
  | nil => intro env _; rfl
  | cons b l ih =>
    intro env h
    have hb : addEnvVarStep env b = env := by
      cases hg : b.1 with
      | true => exact addEnvVarStep_of_hasEnv (h b (List.mem_cons_self b l) hg)
      | false => unfold addEnvVarStep; rw [hg]; simp
    simp only [List.foldl_cons, hb]
    exact ih env (fun a ha => h a (List.mem_cons_of_mem b ha))

theorem mem_foldl_addEnv {e : EnvVar} (l : List (Bool × String × String)) :
    ∀ env : List EnvVar, e ∈ l.foldl addEnvVarStep env →
      e ∈ env ∨ ∃ a ∈ l, e.name = a.2.1 := by
  induction l with
  | nil => intro env h; exact Or.inl (by simpa using h)
  | cons b l ih =>
    intro env h
    simp only [List.foldl_cons] at h
    rcases ih (addEnvVarStep env b) h with h1 | ⟨a, ha, hn⟩
    · unfold addEnvVarStep at h1
      split at h1
      · rcases List.mem_append.mp h1 with h2 | h2
        · exact Or.inl h2
        · right
          refine ⟨b, List.mem_cons_self b l, ?_⟩
          simp only [List.mem_singleton] at h2
          rw [h2]
      · exact Or.inl h1
    · exact Or.inr ⟨a, List.mem_cons_of_mem b ha, hn⟩

theorem envAdditions_name_ne {o : Opts} (hp : ∀ p ∈ o.params, goToUpper p.name ≠ "JENKINS_URL")
    {a : Bool × String × String} (ha : a ∈ envAdditions o) : a.2.1 ≠ "JENKINS_URL" := by
  cases hgi : o.gitInfo with
  | none =>
    simp only [envAdditions, hgi, List.cons_append, List.nil_append, List.singleton_append,
      List.mem_append, List.mem_cons, List.mem_map, List.not_mem_nil, or_false] at ha
    rcases ha with rfl | rfl | rfl | rfl | rfl | ⟨p, hmem, rfl⟩
    · simp
    · simp
    · simp
    · simp
    · simp
    · exact hp p hmem
  | some gi =>
    simp only [envAdditions, hgi, List.cons_append, List.nil_append, List.singleton_append,
      List.mem_append, List.mem_cons, List.mem_map, List.not_mem_nil, or_false] at ha
    rcases ha with rfl | rfl | rfl | rfl | rfl | rfl | rfl | rfl | rfl | ⟨p, hmem, rfl⟩
    · simp
    · simp
    · simp
    · simp
    · simp
    · simp
    · simp
    · simp
    · simp
    · exact hp p hmem

theorem modifyEnvVars_idem (o : Opts) (c : Container)
    (hp : ∀ p ∈ o.params, goToUpper p.name ≠ "JENKINS_URL") :
    modifyEnvVars o (modifyEnvVars o c) = modifyEnvVars o c := by
  unfold modifyEnvVars
  simp only
  congr 1
  have hfilter :
      (((envAdditions o).foldl addEnvVarStep
          (c.env.filter fun e => e.name ≠ "JENKINS_URL")).filter
            fun e => e.name ≠ "JENKINS_URL") =
        (envAdditions o).foldl addEnvVarStep (c.env.filter fun e => e.name ≠ "JENKINS_URL") := by
    apply List.filter_eq_self.mpr
    intro e he
    rcases mem_foldl_addEnv (envAdditions o) _ he with h1 | ⟨a, ha, hn⟩
    · exact (List.mem_filter.mp h1).2
    · have := envAdditions_name_ne hp ha
      rw [← hn] at this
      simpa using this
  rw [hfilter]
  exact foldl_addEnv_noop (envAdditions o) _
    (fun a ha hg => foldl_addEnv_of_mem (envAdditions o) ha hg _)

theorem containsVolume_append_self (v : List Volume) (u : Volume) :
    containsVolume (v ++ [u]) u = true := by
  simp [containsVolume]

theorem containsVolumeMount_append_self (m : List VolumeMount) (u : VolumeMount) :
    containsVolumeMount (m ++ [u]) u = true := by
  simp [containsVolumeMount]

theorem modifyVolumes_idem (c : Container) (v : List Volume) :
    modifyVolumes (modifyVolumes c v).1 (modifyVolumes c v).2 = modifyVolumes c v := by
  unfold modifyVolumes
  by_cases h1 : containsVolume v podInfoVolume <;>
    by_cases h2 : containsVolumeMount c.volumeMounts podInfoVolumeMount <;>
      simp [h1, h2, containsVolume_append_self, containsVolumeMount_append_self]

theorem modifyVolumes_volumes_nodup (c : Container) (v : List Volume)
    (h : (v.map Volume.name).Nodup) :
    (((modifyVolumes c v).2).map Volume.name).Nodup := by
  have key : ¬containsVolume v podInfoVolume = true →
      ((v ++ [podInfoVolume]).map Volume.name).Nodup := by
    intro h1
    rw [List.map_append, List.nodup_append]
    refine ⟨h, by simp, ?_⟩
    intro x hx hx2
    simp only [List.mem_map] at hx
    obtain ⟨w, hw, rfl⟩ := hx
    simp only [List.map_cons, List.map_nil, List.mem_cons, List.not_mem_nil, or_false] at hx2
    apply h1
    simp only [containsVolume, List.any_eq_true, decide_eq_true_eq]
    exact ⟨w, hw, hx2⟩
  unfold modifyVolumes
  by_cases h1 : containsVolume v podInfoVolume
  · simpa [h1] using h
  · simpa [h1] using key h1

theorem modifyVolumes_mounts_nodup (c : Container) (v : List Volume)
    (h : (c.volumeMounts.map VolumeMount.name).Nodup) :
    (((modifyVolumes c v).1).volumeMounts.map VolumeMount.name).Nodup := by
  have key : ¬containsVolumeMount c.volumeMounts podInfoVolumeMount = true →
      ((c.volumeMounts ++ [podInfoVolumeMount]).map VolumeMount.name).Nodup := by
    intro h2
    rw [List.map_append, List.nodup_append]
    refine ⟨h, by simp, ?_⟩
    intro x hx hx2
    simp only [List.mem_map] at hx
    obtain ⟨w, hw, rfl⟩ := hx
    simp only [List.map_cons, List.map_nil, List.mem_cons, List.not_mem_nil, or_false] at hx2
    apply h2
    simp only [containsVolumeMount, List.any_eq_true, decide_eq_true_eq]
    exact ⟨w, hw, hx2⟩
  unfold modifyVolumes
  by_cases h2 : containsVolumeMount c.volumeMounts podInfoVolumeMount
  · simpa [h2] using h
  · simpa [h2] using key h2

/-- Claim C7: environment and volume injection is idempotent — applying
`modifyEnvVars` twice yields the same container as applying it once (injected
variables are appended only if absent, so declared values are never overwritten
and no key is duplicated, given that no declared pipeline parameter upper-cases
to the filtered reserved name `JENKINS_URL`, which holds for the program's
`version`/`preview_version` parameters), and `modifyVolumes` is idempotent and
never introduces a duplicate volume name or duplicate mount name. -/
theorem c7_injection_idempotent (o : Opts) (c : Container) (v : List Volume)
    (hp : ∀ p ∈ o.params, goToUpper p.name ≠ "JENKINS_URL")
    (hv : (v.map Volume.name).Nodup)
    (hm : (c.volumeMounts.map VolumeMount.name).Nodup) :
    modifyEnvVars o (modifyEnvVars o c) = modifyEnvVars o c
    ∧ modifyVolumes (modifyVolumes c v).1 (modifyVolumes c v).2 = modifyVolumes c v
    ∧ (((modifyVolumes c v).2).map Volume.name).Nodup
    ∧ (((modifyVolumes c v).1).volumeMounts.map VolumeMount.name).Nodup :=
  ⟨modifyEnvVars_idem o c hp, modifyVolumes_idem c v,
   modifyVolumes_volumes_nodup c v hv, modifyVolumes_mounts_nodup c v hm⟩

/-- Witness for C7 at a concrete container, volume list and option record. -/
theorem c7_injection_idempotent_witness :
    (∀ p ∈ ({ fixtureOpts with params := [⟨"version", "1.2.3"⟩] } : Opts).params,
        goToUpper p.name ≠ "JENKINS_URL")
    ∧ (modifyEnvVars { fixtureOpts with params := [⟨"version", "1.2.3"⟩] }
          (modifyEnvVars { fixtureOpts with params := [⟨"version", "1.2.3"⟩] } fixtureContainer)
        = modifyEnvVars { fixtureOpts with params := [⟨"version", "1.2.3"⟩] } fixtureContainer
      ∧ modifyVolumes (modifyVolumes fixtureContainer []).1 (modifyVolumes fixtureContainer []).2
        = modifyVolumes fixtureContainer []
      ∧ (((modifyVolumes fixtureContainer []).2).map Volume.name).Nodup
      ∧ (((modifyVolumes fixtureContainer []).1).volumeMounts.map VolumeMount.name).Nodup) :=
  ⟨by decide, c7_injection_idempotent _ _ _ (by decide) (by decide) (by decide)⟩

/-- Claim C8: command-text normalization unescapes `\$`, removes the legacy
``export VERSION=`cat VERSION` && `` prefix, and rewrites `$(cat VERSION)` and
its parent-relative variants to `${VERSION}`; in particular the spec's two
round-trip equations hold. -/
theorem c8_replaceCommandText_rewrites :
    replaceCommandText (.mk "" "export VERSION=`cat VERSION` && npm test" "" "" "" []) = "npm test"
    ∧ replaceCommandText (.mk "" "echo $(cat VERSION)" "" "" "" []) = "echo $\x7bVERSION\x7d"
    ∧ replaceCommandText (.mk "" "echo \\$FOO" "" "" "" []) = "echo $FOO"
    ∧ replaceCommandText (.mk "" "ls $(cat ../VERSION) $(cat ../../VERSION)" "" "" "" [])
      = "ls $\x7bVERSION\x7d $\x7bVERSION\x7d" :=
  ⟨by decide, by decide, by decide, by decide⟩

/-! ## Stage-loop lemmas (claim C1) -/

theorem compileStagesList_tail_cong (o : Opts) (c d : String)
    (e : String × Option PipelineLifecycle) (t1 t2 : List (String × Option PipelineLifecycle))
    (hT : ∀ s v st, compileStagesList o c d t1 s v st = compileStagesList o c d t2 s v st) :
    ∀ s v st, compileStagesList o c d (e :: t1) s v st =
      compileStagesList o c d (e :: t2) s v st := by
  intro s v st
  obtain ⟨n, lc⟩ := e
  cases lc with
  | none => simp only [compileStagesList]; exact hT s v st
  | some l =>
    simp only [compileStagesList]
    cases hg : (!o.noSetVersion && n == "setversion") with
    | true => simp only [if_true]; exact hT s v st
    | false =>
      simp only [Bool.false_eq_true, if_false]
      cases hcl : compileLifecycleSteps o c d n l.steps s v st with
      | error e => rfl
      | ok out =>
        obtain ⟨s2, v2, st2⟩ := out
        exact hT s2 v2 st2

theorem compileStagesList_setversion_skip (o : Opts) (c d : String)
    (h : o.noSetVersion = false) (lc : Option PipelineLifecycle)
    (rest : List (String × Option PipelineLifecycle)) :
    ∀ s v st, compileStagesList o c d (("setversion", lc) :: rest) s v st =
      compileStagesList o c d rest s v st := by
  intro s v st
  cases lc with
  | none => simp only [compileStagesList]
  | some l => simp only [compileStagesList, h, Bool.not_false, Bool.true_and, beq_self_eq_true,
      if_true]

theorem generatePipeline_skip_setversion (o : Opts) (cfg : PipelineConfig)
    (ls : PipelineLifecycles) (st : CompileState) (h : o.noSetVersion = false) :
    generatePipeline o cfg (some ls) st =
      generatePipeline o cfg (some { ls with setVersion := none }) st := by
  unfold generatePipeline
  simp only
  cases hp : ls.pipeline.isSome with
  | true => simp [hp]
  | false =>
    simp only [hp, Bool.false_eq_true, if_false]
    have key : ∀ s v st', compileStagesList o (if o.customImage != "" then o.customImage
        else cfg.agentContainer) (getWorkspaceDir o) ls.All s v st' =
        compileStagesList o (if o.customImage != "" then o.customImage else cfg.agentContainer)
          (getWorkspaceDir o) ({ ls with setVersion := none } : PipelineLifecycles).All s v st' := by
      intro s v st'
      unfold PipelineLifecycles.All
      apply compileStagesList_tail_cong
      intro s1 v1 st1
      rw [compileStagesList_setversion_skip o _ _ h ls.setVersion _ s1 v1 st1,
        compileStagesList_setversion_skip o _ _ h none _ s1 v1 st1]
    rw [key]

theorem compileStagesList_eq_noSkip (o : Opts) (c d : String) (h : o.noSetVersion = true) :
    ∀ (entries : List (String × Option PipelineLifecycle)) (s : List Container)
      (v : List Volume) (st : CompileState),
      compileStagesList o c d entries s v st = compileStagesListNoSkip o c d entries s v st := by
  intro entries
  induction entries with
  | nil => intro s v st; rfl
  | cons e rest ih =>
    intro s v st
    obtain ⟨n, lc⟩ := e
    cases lc with
    | none =>
      simp only [compileStagesList, compileStagesListNoSkip]
      exact ih s v st
    | some l =>
      simp only [compileStagesList, compileStagesListNoSkip, h, Bool.not_true, Bool.false_and,
        Bool.false_eq_true, if_false]
      cases hcl : compileLifecycleSteps o c d n l.steps s v st with
      | error e => rfl
      | ok out =>
        obtain ⟨s2, v2, st2⟩ := out
        exact ih s2 v2 st2

/-- Claim C1 (amended): in the build-pack path the "setversion" stage is skipped
exactly when version-setting is *enabled* (`NoSetVersion` unset): with
`NoSetVersion = false` compilation is unchanged by deleting the setversion
lifecycle, and with `NoSetVersion = true` the stage loop behaves like the
unconditional loop that compiles every present stage. -/
theorem c1_setversion_skip_inverted (o : Opts) (cfg : PipelineConfig) (ls : PipelineLifecycles)
    (st : CompileState) (cn dir : String)
    (entries : List (String × Option PipelineLifecycle))
    (steps : List Container) (vols : List Volume) :
    (o.noSetVersion = false →
      generatePipeline o cfg (some ls) st =
        generatePipeline o cfg (some { ls with setVersion := none }) st)
    ∧ (o.noSetVersion = true →
      compileStagesList o cn dir entries steps vols st =
        compileStagesListNoSkip o cn dir entries steps vols st) :=
  ⟨fun h => generatePipeline_skip_setversion o cfg ls st h,
   fun h => compileStagesList_eq_noSkip o cn dir h entries steps vols st⟩

/-- Counterexample to claim C1 as stated: with version-setting *disabled*
(`NoSetVersion = true`) the setversion step IS compiled into the step list, and
with version-setting enabled it is omitted — the opposite of the claim. -/
theorem c1_counterexample :
    (match generatePipeline { fixtureOpts with noSetVersion := true } fixtureConfig
        (some fixtureSetVersionOnly) st0 with
     | .ok (.buildPackTask t) => t.steps.map Container.name
     | _ => []) = ["setversion-set-version"]
    ∧ (match generatePipeline fixtureOpts fixtureConfig (some fixtureSetVersionOnly) st0 with
     | .ok (.buildPackTask t) => t.steps.map Container.name
     | _ => []) = [] :=
  ⟨by decide, by decide⟩

/-- Witness for C1 at concrete inputs. -/
theorem c1_setversion_skip_inverted_witness :
    (generatePipeline fixtureOpts fixtureConfig (some fixtureSetVersionOnly) st0 =
      generatePipeline fixtureOpts fixtureConfig
        (some { fixtureSetVersionOnly with setVersion := none }) st0)
    ∧ (compileStagesList { fixtureOpts with noSetVersion := true } "maven" "/workspace/source"
        fixtureSetVersionOnly.All [] [] st0 =
      compileStagesListNoSkip { fixtureOpts with noSetVersion := true } "maven" "/workspace/source"
        fixtureSetVersionOnly.All [] [] st0) :=
  ⟨(c1_setversion_skip_inverted fixtureOpts fixtureConfig fixtureSetVersionOnly st0 "maven"
      "/workspace/source" [] [] []).1 rfl,
   (c1_setversion_skip_inverted { fixtureOpts with noSetVersion := true } fixtureConfig
      fixtureSetVersionOnly st0 "maven" "/workspace/source" fixtureSetVersionOnly.All [] []).2 rfl⟩

/-- Claim C2 (amended): when the selected pipeline kind has no lifecycle entry
(nil lifecycles pointer), compilation does not fail with a ConfigError: for
pullrequest and feature kinds `generatePipeline` returns success having done
nothing (`return nil` at its top), and for the release kind `generateTask`
dereferences the nil pointer (a Go panic) while prepending the credentials
step. -/
theorem c2_nil_lifecycles_no_error (o : Opts) (cfg : PipelineConfig) (st : CompileState) :
    (o.pipelineKind = "pullrequest" → cfg.pipelines.pullRequest = none →
      generateTask o cfg st = .ok .noLifecycles)
    ∧ (o.pipelineKind = "feature" → cfg.pipelines.feature = none →
      generateTask o cfg st = .ok .noLifecycles)
    ∧ (o.pipelineKind = "release" → cfg.pipelines.release = none →
      generateTask o cfg st = .error .nilPanic) := by
  refine ⟨?_, ?_, ?_⟩ <;> intro hk hc
  · unfold generateTask
    rw [hk, hc]
    rfl
  · unfold generateTask
    rw [hk, hc]
    rfl
  · unfold generateTask
    rw [hk, hc]
    rfl

/-- Counterexample to claim C2 as stated: a pullrequest compile over a config
with no pullrequest lifecycles succeeds doing nothing instead of failing with a
ConfigError. -/
theorem c2_counterexample :
    generateTask { fixtureOpts with pipelineKind := "pullrequest" } cfgNoPipelines st0 =
      .ok .noLifecycles := rfl

/-- Witness for C2 at concrete inputs. -/
theorem c2_nil_lifecycles_no_error_witness :
    (generateTask { fixtureOpts with pipelineKind := "feature" } cfgNoPipelines st0 =
      .ok .noLifecycles)
    ∧ (generateTask fixtureOpts cfgNoPipelines st0 = .error .nilPanic) :=
  ⟨(c2_nil_lifecycles_no_error { fixtureOpts with pipelineKind := "feature" } cfgNoPipelines
      st0).2.1 rfl rfl,
   (c2_nil_lifecycles_no_error fixtureOpts cfgNoPipelines st0).2.2 rfl rfl⟩

/-! ## Leaf-compilation lemmas (claims C3, C10) -/

theorem compileLeaf_fields (o : Opts) (step : PipelineStep) (c : Container) (vols : List Volume)
    (k : Nat) (pfx dir : String) :
    (compileLeaf o step c vols k pfx dir).1.name =
      (if pfx != "" then pfx ++ "-" else pfx) ++
        (if step.name = "" then "step" ++ toString (1 + k) else step.name)
    ∧ (compileLeaf o step c vols k pfx dir).1.args = ["-c", replaceCommandText step]
    ∧ (compileLeaf o step c vols k pfx dir).1.command = ["/bin/sh"] := by
  unfold compileLeaf
  dsimp only
  refine ⟨?_, ?_, ?_⟩ <;>
    simp only [modifyEnvVars] <;>
    (try split) <;> (try split) <;> (try split) <;>
    simp [modifyVolumes] <;> (try split) <;> rfl

theorem compileLeaf_image (o : Opts) (step : PipelineStep) (c : Container) (vols : List Volume)
    (k : Nat) (pfx dir : String) :
    (compileLeaf o step c vols k pfx dir).1.image =
      (if (o.customImage != "") = true then o.customImage else c.image) := by
  unfold compileLeaf
  dsimp only
  split
  all_goals simp [modifyEnvVars, modifyVolumes]
  all_goals (try split)
  all_goals rfl

theorem mem_recordMissing (st : CompileState) (n : String) : n ∈ (st.recordMissing n).missing := by
  unfold CompileState.recordMissing
  split
  · assumption
  · simp

theorem createSteps_leaf_shape (o : Opts) (sname scmd sdir scont swhen cn dir pfx : String)
    (st : CompileState) (hcmd : (scmd != "") = true)
    (res : List Container × List Volume × CompileState)
    (hres : createSteps o (.mk sname scmd sdir scont swhen []) cn dir pfx st = .ok res) :
    ∃ c vols st', res = ([c], vols, st')
      ∧ c.name = (if pfx != "" then pfx ++ "-" else pfx) ++
          (if sname = "" then "step" ++ toString (1 + st'.stepCounter) else sname)
      ∧ c.args = ["-c", replaceCommandText (.mk sname scmd sdir scont swhen [])]
      ∧ c.command = ["/bin/sh"] := by
  unfold createSteps at hres
  simp only [hcmd, if_true] at hres
  split at hres
  · exact absurd hres (by simp)
  · split at hres
    · exact absurd hres (by simp)
    · unfold createStepsList at hres
      simp only [Except.ok.injEq] at hres
      subst hres
      refine ⟨_, _, _, rfl, ?_, ?_, ?_⟩
      · exact (compileLeaf_fields o _ _ _ _ pfx _).1
      · exact (compileLeaf_fields o _ _ _ _ pfx _).2.1
      · exact (compileLeaf_fields o _ _ _ _ pfx _).2.2

/-- Claim C3 (amended): for a leaf step, a container name absent from the
pod-template map is recorded in the missing set and the default template's
container is substituted, compilation succeeding; compilation fails with the
"No Containers" error when the selected template has zero containers; but when
the selected name and the default are both absent from the map the code
nil-panics instead of failing cleanly. -/
theorem c3_pod_template_fallback (o : Opts) (sname scmd swhen dir pfx : String)
    (st : CompileState) (hcmd : (scmd != "") = true) :
    (∀ (cn : String) (dpt : Pod) (c0 : Container) (cs : List Container),
      cn ≠ "" → o.podTemplates cn = none → o.podTemplates defaultContainerName = some dpt →
      dpt.spec.containers = c0 :: cs →
      ∃ c vols st', createSteps o (.mk sname scmd "" "" swhen []) cn dir pfx st =
          .ok ([c], vols, st')
        ∧ cn ∈ st'.missing
        ∧ c.image = (if (o.customImage != "") = true then o.customImage else c0.image))
    ∧ (∀ (cn : String) (pt : Pod),
      cn ≠ "" → o.podTemplates cn = some pt → pt.spec.containers = [] →
      createSteps o (.mk sname scmd "" "" swhen []) cn dir pfx st =
        .error (.errMsg ("No Containers for pod template " ++ cn)))
    ∧ (∀ cn : String,
      cn ≠ "" → o.podTemplates cn = none → o.podTemplates defaultContainerName = none →
      createSteps o (.mk sname scmd "" "" swhen []) cn dir pfx st = .error .nilPanic) := by
  refine ⟨?_, ?_, ?_⟩
  · intro cn dpt c0 cs hcn hmiss hdef hcont
    unfold createSteps
    simp only [show (("" : String) != "") = false from rfl, Bool.false_eq_true, if_false,
      hcmd, if_true, if_neg hcn, hmiss, hdef, hcont]
    unfold createStepsList
    exact ⟨_, _, _, rfl, mem_recordMissing st cn, compileLeaf_image o _ c0 _ _ pfx _⟩
  · intro cn pt hcn hsome hempty
    unfold createSteps
    simp only [show (("" : String) != "") = false from rfl, Bool.false_eq_true, if_false,
      hcmd, if_true, if_neg hcn, hsome, hempty]
  · intro cn hcn hmiss hdefmiss
    unfold createSteps
    simp only [show (("" : String) != "") = false from rfl, Bool.false_eq_true, if_false,
      hcmd, if_true, if_neg hcn, hmiss, hdefmiss]

/-- Counterexample to claim C3 as stated ("it never crashes, including when the
default template itself is absent"): with no templates at all the code
dereferences a nil pod template — modelled as the `nilPanic` outcome. -/
theorem c3_counterexample :
    createSteps { fixtureOpts with podTemplates := fun _ => none }
      (.mk "one" "mvn test" "" "maven" "" []) "" "" "build" st0 = .error .nilPanic := rfl

/-- Witness for C3 at concrete inputs: requested name "maven" missing, default
present — compilation succeeds, records "maven" missing, and uses the default
template's container image. -/
theorem c3_pod_template_fallback_witness :
    ∃ c vols st', createSteps fixtureOptsDefaultOnly (.mk "one" "mvn test" "" "" "" [])
        "maven" "" "build" st0 = .ok ([c], vols, st')
      ∧ "maven" ∈ st'.missing
      ∧ c.image = (if (fixtureOptsDefaultOnly.customImage != "") = true
          then fixtureOptsDefaultOnly.customImage else fixtureContainer.image) :=
  (c3_pod_template_fallback fixtureOptsDefaultOnly "one" "mvn test" "" "" "build" st0
    (by decide)).1 "maven" fixturePod fixtureContainer [] (by decide) rfl rfl rfl

/-- Claim C4 (amended): a grouping step's children are compiled in order with
the inherited container and directory, where a step's `Container` override
always takes effect but its `Dir` override only takes effect when `Container`
is NOT also set — the source tests the two fields with `else if`, so when both
are set the directory override is silently ignored. -/
theorem c4_grouping_inheritance (o : Opts) (sname sdir scont swhen : String)
    (children : List PipelineStep) (cn dir pfx : String) (st : CompileState) :
    (createSteps o (.mk sname "" sdir scont swhen children) cn dir pfx st =
      createStepsList o children
        (if (scont != "") = true then scont else cn)
        (match o.gitInfo with
         | some gi => goReplaceAll (goReplaceAll
             (if (scont != "") = true then dir else if (sdir != "") = true then sdir else dir)
             "REPLACE_ME_APP_NAME" gi.name) "REPLACE_ME_ORG" gi.organisation
         | none => if (scont != "") = true then dir else if (sdir != "") = true then sdir else dir)
        pfx [] [] st)
    ∧ ((scont != "") = true →
      createSteps o (.mk sname "" sdir scont swhen children) cn dir pfx st =
        createSteps o (.mk sname "" "" scont swhen children) cn dir pfx st) := by
  constructor
  · rfl
  · intro hsc
    unfold createSteps
    simp only [hsc, if_true, show (("" : String) != "") = false from rfl, Bool.false_eq_true,
      if_false]

/-- Counterexample to claim C4 as stated: a parent that sets both `Container`
and `Dir` passes only the container down — the child's working directory stays
"/base" instead of the claimed inherited "sub" (which would resolve to
"/workspace/source/sub"). -/
theorem c4_counterexample :
    (match createSteps fixtureOpts
        (.mk "par" "" "sub" "maven" "" [.mk "child" "echo hi" "" "" "" []])
        "othercontainer" "/base" "build" st0 with
     | .ok (cs, _, _) => cs.map Container.workingDir
     | _ => []) = ["/base"]
    ∧ ("/base" : String) ≠ "/workspace/source/sub" :=
  ⟨by decide, by decide⟩

/-- Witness for C4 at concrete inputs. -/
theorem c4_grouping_inheritance_witness :
    createSteps fixtureOpts (.mk "par" "" "sub" "maven" "" [.mk "child" "echo hi" "" "" "" []])
        "cn0" "/base" "build" st0 =
      createSteps fixtureOpts (.mk "par" "" "" "maven" "" [.mk "child" "echo hi" "" "" "" []])
        "cn0" "/base" "build" st0 :=
  (c4_grouping_inheritance fixtureOpts "par" "sub" "maven" ""
    [.mk "child" "echo hi" "" "" "" []] "cn0" "/base" "build" st0).2 (by decide)

/-- Claim C5: for a release-kind invocation with version-setting enabled and no
step-listing requested, a missing release pipeline or a missing setversion
stage makes version resolution fail (the code's two `fmt.Errorf` messages,
the spec's `MissingVersionStageError`), aborting the compile. -/
theorem c5_missing_version_stage (o : Opts) (cfg : PipelineConfig) (versionFile : Option String)
    (runner : String → Except GoError String)
    (h1 : o.noSetVersion = false) (h2 : o.viewSteps = false) (h3 : o.pipelineKind = "release")
    (h4 : cfg.pipelines.release = none ∨
      ∃ rel, cfg.pipelines.release = some rel ∧ rel.setVersion = none) :
    setVersionOnReleasePipelines o cfg versionFile runner =
        .error (.errMsg "no Release pipeline available")
    ∨ setVersionOnReleasePipelines o cfg versionFile runner =
        .error (.errMsg "no SetVersion pipeline on the Release pipeline") := by
  unfold setVersionOnReleasePipelines
  rcases h4 with h | ⟨rel, hrel, hsv⟩
  · left
    simp [h1, h2, h3, h]
  · right
    simp [h1, h2, h3, hrel, hsv]

/-- Witness for C5 at concrete inputs: no release pipeline in the config. -/
theorem c5_missing_version_stage_witness :
    setVersionOnReleasePipelines fixtureOpts cfgNoPipelines (some "1.2.3\n") (fun _ => .ok "") =
        .error (.errMsg "no Release pipeline available")
    ∨ setVersionOnReleasePipelines fixtureOpts cfgNoPipelines (some "1.2.3\n") (fun _ => .ok "") =
        .error (.errMsg "no SetVersion pipeline on the Release pipeline") :=
  c5_missing_version_stage fixtureOpts cfgNoPipelines (some "1.2.3\n") (fun _ => .ok "")
    rfl rfl rfl (Or.inl rfl)

/-- Claim C6: when the release setversion steps succeed, a VERSION file with
non-whitespace content makes its trimmed text the `version` parameter and sets
the revision to `v` followed by it; an all-whitespace file leaves the
parameters and the revision unchanged. -/
theorem c6_version_file (o : Opts) (cfg : PipelineConfig) (rel : PipelineLifecycles)
    (sv : PipelineLifecycle) (data : String) (runner : String → Except GoError String)
    (h1 : o.noSetVersion = false) (h2 : o.viewSteps = false) (h3 : o.pipelineKind = "release")
    (h4 : cfg.pipelines.release = some rel) (h5 : rel.setVersion = some sv)
    (h6 : invokeSteps runner sv.steps = .ok ()) :
    (goTrimSpace data ≠ "" →
      setVersionOnReleasePipelines o cfg (some data) runner =
        .ok (o.params ++ [{ name := "version", value := goTrimSpace data }],
             "v" ++ goTrimSpace data))
    ∧ (goTrimSpace data = "" →
      setVersionOnReleasePipelines o cfg (some data) runner = .ok (o.params, o.revision)) := by
  constructor
  · intro hne
    unfold setVersionOnReleasePipelines
    simp [h1, h2, h3, h4, h5, h6, hne]
  · intro hz
    unfold setVersionOnReleasePipelines
    simp [h1, h2, h3, h4, h5, h6, hz]

/-- Witness for C6 at concrete inputs: VERSION file containing "1.2.3\n". -/
theorem c6_version_file_witness :
    setVersionOnReleasePipelines fixtureOpts fixtureConfig (some "1.2.3\n") (fun _ => .ok "") =
      .ok (fixtureOpts.params ++ [{ name := "version", value := goTrimSpace "1.2.3\n" }],
           "v" ++ goTrimSpace "1.2.3\n") :=
  (c6_version_file fixtureOpts fixtureConfig fixtureSetVersionOnly
    { steps := [.mk "set-version" "jx step next-version" "" "" "" []] } "1.2.3\n"
    (fun _ => .ok "") rfl rfl rfl rfl rfl rfl).1 (by decide)

/-- Claim C9 (amended): with the no-apply flag set `applyPipeline` issues no
cluster mutation, and the in-memory Results carry the same pipeline, tasks,
resources and run as a successful apply — but the structure record is returned
unstamped (apply mode rewrites its name, refs and owner references), so the
Results coincide with the apply-mode Results exactly when no structure record
is present. -/
theorem c9_noApply_frame (o : Opts) (ns : String) (pipeline : Pipeline)
    (tasks : List TektonTask) (resources : List Resource)
    (struct : Option PipelineStructure) (h : o.noApply = true) :
    (applyPipeline o ns pipeline tasks resources struct).2 = []
    ∧ (applyPipeline o ns pipeline tasks resources struct).1.struct = struct
    ∧ (applyPipeline o ns pipeline tasks resources struct).1.pipeline =
        (applyPipeline { o with noApply := false } ns pipeline tasks resources struct).1.pipeline
    ∧ (applyPipeline o ns pipeline tasks resources struct).1.tasks =
        (applyPipeline { o with noApply := false } ns pipeline tasks resources struct).1.tasks
    ∧ (applyPipeline o ns pipeline tasks resources struct).1.resources =
        (applyPipeline { o with noApply := false } ns pipeline tasks resources struct).1.resources
    ∧ (applyPipeline o ns pipeline tasks resources struct).1.pipelineRun =
        (applyPipeline { o with noApply := false } ns pipeline tasks resources struct).1.pipelineRun
    ∧ (struct = none →
        (applyPipeline o ns pipeline tasks resources struct).1 =
          (applyPipeline { o with noApply := false } ns pipeline tasks resources struct).1) := by
  refine ⟨?_, ?_, ?_, ?_, ?_, ?_, ?_⟩
  · unfold applyPipeline
    simp [h]
  · unfold applyPipeline
    simp [h]
  · rfl
  · rfl
  · rfl
  · rfl
  · intro hs
    subst hs
    unfold applyPipeline
    simp [h]

/-- Counterexample to claim C9 as stated: with a structure record present the
no-apply Results differ from the apply-enabled Results (the structure is not
stamped with the run's name and owner reference). -/
theorem c9_counterexample :
    (applyPipeline { fixtureOpts with noApply := true } "jx" fixturePipelineObj [] []
        (some fixtureStructure)).1 ≠
      (applyPipeline fixtureOpts "jx" fixturePipelineObj [] [] (some fixtureStructure)).1 := by
  decide

/-- Witness for C9 at concrete inputs. -/
theorem c9_noApply_frame_witness :
    ((applyPipeline { fixtureOpts with noApply := true } "jx" fixturePipelineObj [] []
        (some fixtureStructure)).2 = [])
    ∧ ((applyPipeline { fixtureOpts with noApply := true } "jx" fixturePipelineObj [] []
        (some fixtureStructure)).1.struct = some fixtureStructure) :=
  ⟨(c9_noApply_frame { fixtureOpts with noApply := true } "jx" fixturePipelineObj [] []
      (some fixtureStructure) rfl).1,
   (c9_noApply_frame { fixtureOpts with noApply := true } "jx" fixturePipelineObj [] []
      (some fixtureStructure) rfl).2.1⟩

/-! ## Accumulator lemmas for the compile loops (claim C10) -/

theorem createStepsList_acc (o : Opts) (steps : List PipelineStep) (cn dir pfx : String) :
    ∀ (acc : List Container) (vols : List Volume) (st : CompileState)
      (S : List Container) (V : List Volume) (ST : CompileState),
      createStepsList o steps cn dir pfx acc vols st = .ok (S, V, ST) →
      ∃ suf, S = acc ++ suf := by
  induction steps with
  | nil =>
    intro acc vols st S V ST h
    unfold createStepsList at h
    simp only [Except.ok.injEq, Prod.mk.injEq] at h
    exact ⟨[], by simp [← h.1]⟩
  | cons s rest ih =>
    intro acc vols st S V ST h
    unfold createStepsList at h
    split at h
    · exact absurd h (by simp)
    · next ss v st2 heq =>
      obtain ⟨suf, hsuf⟩ := ih _ _ _ _ _ _ h
      exact ⟨ss ++ suf, by simpa [List.append_assoc] using hsuf⟩

theorem compileLifecycleSteps_acc (o : Opts) (steps : List PipelineStep) (cn dir sn : String) :
    ∀ (acc : List Container) (vols : List Volume) (st : CompileState)
      (S : List Container) (V : List Volume) (ST : CompileState),
      compileLifecycleSteps o cn dir sn steps acc vols st = .ok (S, V, ST) →
      ∃ suf, S = acc ++ suf := by
  induction steps with
  | nil =>
    intro acc vols st S V ST h
    unfold compileLifecycleSteps at h
    simp only [Except.ok.injEq, Prod.mk.injEq] at h
    exact ⟨[], by simp [← h.1]⟩
  | cons s rest ih =>
    intro acc vols st S V ST h
    unfold compileLifecycleSteps at h
    split at h
    · exact absurd h (by simp)
    · next ss v st2 heq =>
      obtain ⟨suf, hsuf⟩ := ih _ _ _ _ _ _ h
      exact ⟨ss ++ suf, by simpa [List.append_assoc] using hsuf⟩

theorem compileStagesList_acc (o : Opts) (cn dir : String)
    (entries : List (String × Option PipelineLifecycle)) :
    ∀ (acc : List Container) (vols : List Volume) (st : CompileState)
      (S : List Container) (V : List Volume) (ST : CompileState),
      compileStagesList o cn dir entries acc vols st = .ok (S, V, ST) →
      ∃ suf, S = acc ++ suf := by
  induction entries with
  | nil =>
    intro acc vols st S V ST h
    unfold compileStagesList at h
    simp only [Except.ok.injEq, Prod.mk.injEq] at h
    exact ⟨[], by simp [← h.1]⟩
  | cons e rest ih =>
    intro acc vols st S V ST h
    obtain ⟨n, lc⟩ := e
    unfold compileStagesList at h
    cases lc with
    | none => exact ih _ _ _ _ _ _ h
    | some l =>
      simp only at h
      split at h
      · exact ih _ _ _ _ _ _ h
      · split at h
        · exact absurd h (by simp)
        · next s2 v2 st2 heq =>
          obtain ⟨suf1, h1⟩ := compileLifecycleSteps_acc o l.steps cn dir n _ _ _ _ _ _ heq
          obtain ⟨suf2, h2⟩ := ih _ _ _ _ _ _ h
          exact ⟨suf1 ++ suf2, by rw [h2, h1, List.append_assoc]⟩

theorem generateTask_release_head (o : Opts) (cfg : PipelineConfig) (ls : PipelineLifecycles)
    (st : CompileState) (t : TektonTask)
    (hk : o.pipelineKind = "release") (hr : cfg.pipelines.release = some ls)
    (ht : generateTask o cfg st = .ok (.buildPackTask t)) :
    ∃ c rest, t.steps = c :: rest ∧ c.name = "setup-jx-git-credentials"
      ∧ c.args = ["-c", "jx step git credentials"] ∧ c.command = ["/bin/sh"] := by
  simp only [generateTask, hk, hr] at ht
  unfold generatePipeline at ht
  cases hpp : ls.pipeline with
  | some u => simp [hpp] at ht
  | none =>
    simp only [hpp, Option.isSome_none, Bool.false_eq_true, if_false] at ht
    split at ht
    · simp at ht
    · next S V ST heq =>
      simp only [Except.ok.injEq, PipelineOutcome.buildPackTask.injEq] at ht
      subst ht
      simp only [PipelineLifecycles.All, List.singleton_append] at heq
      unfold compileStagesList at heq
      simp only [show (("setup" : String) == "setversion") = false from rfl,
        Bool.and_false, Bool.false_eq_true, if_false] at heq
      split at heq
      · simp at heq
      · next s1 v1 st1 hlc =>
        unfold compileLifecycleSteps at hlc
        split at hlc
        · simp at hlc
        · next ss v2 st2 heq3 =>
          obtain ⟨c, vols, st3, hcss, hname, hargs, hcmdc⟩ :=
            createSteps_leaf_shape o "jx-git-credentials" "jx step git credentials" "" "" ""
              _ _ "setup" st (by decide) _ heq3
          simp only [Prod.mk.injEq] at hcss
          obtain ⟨hss, hv2, hst2⟩ := hcss
          obtain ⟨suf1, hs1⟩ := compileLifecycleSteps_acc _ _ _ _ _ _ _ _ _ _ _ hlc
          obtain ⟨suf2, hs2⟩ := compileStagesList_acc _ _ _ _ _ _ _ _ _ _ heq
          refine ⟨c, suf1 ++ suf2, ?_, ?_, ?_, hcmdc⟩
          · show S = c :: (suf1 ++ suf2)
            rw [hs2, hs1, hss]
            simp
          · rw [hname]
            simp
          · rw [hargs]
            decide

/-- Claim C10: for release-kind invocations `generateTask` prepends the
"jx-git-credentials" step (command `jx step git credentials`) to the setup
lifecycle, creating it when absent, so a successfully compiled build-pack
release task starts with the credentials step ahead of every user-supplied
setup step; for pullrequest and feature kinds the lifecycles are passed to
`generatePipeline` unchanged, with no step added. -/
theorem c10_credentials_prepended (o : Opts) (cfg : PipelineConfig) (ls : PipelineLifecycles)
    (st : CompileState) (t : TektonTask)
    (hk : o.pipelineKind = "release") (hr : cfg.pipelines.release = some ls)
    (ht : generateTask o cfg st = .ok (.buildPackTask t)) :
    (∃ c rest, t.steps = c :: rest ∧ c.name = "setup-jx-git-credentials"
      ∧ c.args = ["-c", "jx step git credentials"] ∧ c.command = ["/bin/sh"])
    ∧ (∀ (o' : Opts) (st' : CompileState), o'.pipelineKind = "pullrequest" →
        generateTask o' cfg st' = generatePipeline o' cfg cfg.pipelines.pullRequest st')
    ∧ (∀ (o' : Opts) (st' : CompileState), o'.pipelineKind = "feature" →
        generateTask o' cfg st' = generatePipeline o' cfg cfg.pipelines.feature st') := by
  refine ⟨generateTask_release_head o cfg ls st t hk hr ht, ?_, ?_⟩
  · intro o' st' h
    unfold generateTask
    rw [h]
    rfl
  · intro o' st' h
    unfold generateTask
    rw [h]
    rfl

/-- Witness for C10 at concrete inputs. -/
theorem c10_credentials_prepended_witness :
    ∃ t : TektonTask, generateTask fixtureOpts fixtureConfig st0 = .ok (.buildPackTask t)
      ∧ ∃ c rest, t.steps = c :: rest ∧ c.name = "setup-jx-git-credentials"
        ∧ c.args = ["-c", "jx step git credentials"] ∧ c.command = ["/bin/sh"] := by
  refine ⟨_, rfl, (c10_credentials_prepended fixtureOpts fixtureConfig fixtureSetVersionOnly
    st0 _ rfl rfl rfl).1⟩
